import Mathlib

/-!
Verification of the structured extraction & normalization pipeline of the
CareMatch AI backend (`src/backend/main.py`).

The Python code is shallowly embedded as executable Lean definitions:

* loosely-typed JSON values (what `json.loads` returns and the generator
  emits) are the inductive `JVal`; Python `dict`s are association lists
  with unique keys (`JObj`), looked up by first match;
* Python `float` scores and years are modelled as rationals (`ℚ`): every
  decimal literal appearing in the code and in the inputs the pipeline
  compares against is treated exactly, which preserves all the order
  comparisons the code performs;
* character-level operations (`str.strip`, `str.lower`, `float(...)`,
  `int(...)`, `json.loads`) are modelled on ASCII character lists; the
  whitespace set is the common core {space, tab, newline, carriage
  return} and `lower` is ASCII case-folding, as in every input the
  pipeline's tests exercise;
* code that raises an exception is embedded as `Except`/`Option`
  failure; a silently skipped ranking entry is `Option.none` inside a
  successful `Except.ok`.
-/

attribute [local semireducible] Rat.mul Rat.add Rat.inv Rat.sub

/-- A loosely-typed JSON value, as produced by `json.loads` in
`parse_json_from_text` and consumed by the normalization pipeline. -/
inductive JVal where
  | null
  | bool (b : Bool)
  | num (q : ℚ)
  | str (s : String)
  | arr (xs : List JVal)
  | obj (fields : List (String × JVal))

/-- A Python `dict` holding JSON data: an ordered association list with
unique keys (lookup takes the first match). -/
abbrev JObj := List (String × JVal)

/-- Python truthiness (`bool(v)`) of a JSON value: `None`, `False`, `0`,
`""`, `[]` and the empty dict are falsy, everything else is truthy. -/
def JVal.truthy : JVal → Bool
  | .null => false
  | .bool b => b
  | .num q => decide (q ≠ 0)
  | .str s => decide (s ≠ "")
  | .arr xs => !xs.isEmpty
  | .obj fields => !fields.isEmpty

/-- Python `d[k]` as an option: the value bound to `k`, if any
(`d.get(k)` with no default). -/
def dictGet (fields : JObj) (k : String) : Option JVal :=
  (fields.find? (fun kv => kv.1 == k)).map (fun kv => kv.2)

/-- Python `d.get(k, default)`. -/
def dictGetD (fields : JObj) (k : String) (d : JVal) : JVal :=
  (dictGet fields k).getD d

/-- Python `v.get(k, default)` on a value that must be a dict; on a
non-dict value Python raises `AttributeError`, embedded as `.error`. -/
def objGetD (v : JVal) (k : String) (d : JVal) : Except String JVal :=
  match v with
  | .obj fields => .ok (dictGetD fields k d)
  | _ => .error "AttributeError: not a mapping"

/-- Python `a or b` on JSON values: `a` if truthy, else `b`. -/
def pyOr (a b : JVal) : JVal := if a.truthy then a else b

/-- Requires a string value, as pydantic's `str` fields do (a non-string
raises a validation error). -/
def jStrE (v : JVal) : Except String String :=
  match v with
  | .str s => .ok s
  | _ => .error "ValidationError: str expected"

/-- Extracts a string, if the value is one. -/
def jStr? : JVal → Option String
  | .str s => some s
  | _ => none

/-! ### Whitespace stripping (`str.strip`) and ASCII lowering (`str.lower`) -/

/-- Whitespace recognised by the model: space, tab, newline, carriage
return (the whitespace the JSON grammar skips; `str.strip` and `float`
strip a superset of it, coinciding on the pipeline's inputs). -/
def isWs (c : Char) : Bool := c == ' ' || c == '\t' || c == '\n' || c == '\r'

/-- Drops leading whitespace. -/
def ltrimWs (cs : List Char) : List Char := cs.dropWhile isWs

/-- Drops trailing whitespace. -/
def rtrimWs (cs : List Char) : List Char := (ltrimWs cs.reverse).reverse

/-- Python `str.strip()` on a character list. -/
def pyStrip (cs : List Char) : List Char := rtrimWs (ltrimWs cs)

/-- Python `str.strip()` at the string level. -/
def pyStripS (s : String) : String := ⟨pyStrip s.data⟩

/-- ASCII case-folding of one character, modelling Python `str.lower`. -/
def charLower (c : Char) : Char :=
  if 'A' ≤ c && c ≤ 'Z' then Char.ofNat (c.toNat + 32) else c

/-- Python `str.lower()` (ASCII model). -/
def strLower (s : String) : String := ⟨s.data.map charLower⟩

theorem dropWhile_dropWhile_self (p : Char → Bool) (l : List Char) :
    (l.dropWhile p).dropWhile p = l.dropWhile p := by
  induction l with
  | nil => rfl
  | cons a l ih =>
    by_cases h : p a
    · simp [List.dropWhile_cons, h, ih]
    · simp [List.dropWhile_cons, h]

theorem ltrimWs_ltrimWs (cs : List Char) : ltrimWs (ltrimWs cs) = ltrimWs cs :=
  dropWhile_dropWhile_self isWs cs

theorem rtrimWs_rtrimWs (cs : List Char) : rtrimWs (rtrimWs cs) = rtrimWs cs := by
  simp only [rtrimWs, ltrimWs, List.reverse_reverse]
  rw [dropWhile_dropWhile_self]

theorem ltrimWs_rtrimWs_of_ltrimmed (cs : List Char) (h : ltrimWs cs = cs) :
    ltrimWs (rtrimWs cs) = rtrimWs cs := by
  cases cs with
  | nil => rfl
  | cons a t =>
    have ha : isWs a = false := by
      by_contra hcon
      have ha' : isWs a = true := by
        cases hh : isWs a
        · exact absurd hh hcon
        · rfl
      have : (a :: t).dropWhile isWs = t.dropWhile isWs := by
        simp [List.dropWhile_cons, ha']
      have hlen : (a :: t).length ≤ t.length := by
        calc (a :: t).length = ((a :: t).dropWhile isWs).length := by
              rw [show (a :: t).dropWhile isWs = a :: t from h]
          _ = (t.dropWhile isWs).length := by rw [this]
          _ ≤ t.length := (List.dropWhile_sublist isWs).length_le
      simp at hlen
    show ltrimWs ((ltrimWs (a :: t).reverse).reverse) = (ltrimWs (a :: t).reverse).reverse
    rw [show (a :: t).reverse = t.reverse ++ [a] from by simp]
    rw [show ltrimWs (t.reverse ++ [a]) = ltrimWs t.reverse ++ [a] from ?_]
    · rw [List.reverse_append]
      simp only [List.reverse_cons, List.reverse_nil, List.nil_append, List.singleton_append]
      simp [ltrimWs, List.dropWhile_cons, ha]
    · unfold ltrimWs
      rw [List.dropWhile_append]
      cases hdw : t.reverse.dropWhile isWs with
      | nil => simp [List.dropWhile_cons, ha]
      | cons b r => simp

theorem pyStrip_pyStrip (cs : List Char) : pyStrip (pyStrip cs) = pyStrip cs := by
  unfold pyStrip
  rw [ltrimWs_rtrimWs_of_ltrimmed (ltrimWs cs) (ltrimWs_ltrimWs cs), rtrimWs_rtrimWs]

/-! ### Numeric coercions: Python `float(...)` and `int(...)` -/

/-- Decimal digit test. -/
def isDigit (c : Char) : Bool := '0' ≤ c && c ≤ '9'

/-- Splits a character list into its leading digit run and the rest. -/
def takeDigits (cs : List Char) : List Char × List Char :=
  (cs.takeWhile isDigit, cs.dropWhile isDigit)

/-- The natural number denoted by a digit run. -/
def digitsToNat (ds : List Char) : Nat :=
  ds.foldl (fun n c => 10 * n + (c.toNat - 48)) 0

/-- Ten to a natural power, as a rational. -/
def pow10 (n : Nat) : ℚ := (10 : ℚ) ^ n

/-- Scales a rational by a signed power of ten. -/
def applyExp (q : ℚ) (e : Int) : ℚ :=
  if 0 ≤ e then q * pow10 e.toNat else q / pow10 (-e).toNat

/-- Exponent tail of a Python float literal: optional sign then at least
one digit, which must end the input. -/
def parseExpTail (mant : ℚ) (fracLen : Nat) (cs : List Char) : Option ℚ :=
  let (esign, cs1) : Int × List Char :=
    match cs with
    | '-' :: r => (-1, r)
    | '+' :: r => (1, r)
    | _ => (1, cs)
  let (ed, cs2) := takeDigits cs1
  if ed.isEmpty then none
  else if cs2.isEmpty then
    some (applyExp mant (esign * (digitsToNat ed : Int) - (fracLen : Int)))
  else none

/-- Body of a Python float literal (whitespace already stripped):
optional sign, integer digits with an optional fractional part (at
least one digit between them), optional exponent. -/
def parseFloatCore (cs : List Char) : Option ℚ :=
  let (sign, cs1) : ℚ × List Char :=
    match cs with
    | '-' :: r => (-1, r)
    | '+' :: r => (1, r)
    | _ => (1, cs)
  let (ip, cs2) := takeDigits cs1
  let (fp, cs3) :=
    match cs2 with
    | '.' :: r => takeDigits r
    | _ => ([], cs2)
  if ip.isEmpty && fp.isEmpty then none
  else
    let mant : ℚ := sign * (digitsToNat (ip ++ fp) : ℚ)
    match cs3 with
    | [] => some (applyExp mant (-(fp.length : Int)))
    | 'e' :: r => parseExpTail mant fp.length r
    | 'E' :: r => parseExpTail mant fp.length r
    | _ => none

/-- Python `float(s)` on a string: strips whitespace, then parses a
finite decimal literal; `none` models a raised `ValueError`. The exotic
accepted spellings `inf`, `nan` and digit-group underscores are outside
the model. -/
def pyFloat? (s : String) : Option ℚ :=
  let cs := pyStrip s.data
  if cs.isEmpty then none else parseFloatCore cs

/-- Python `int(s)` on a string: strips whitespace, then optional sign
and at least one digit ending the input; `none` models `ValueError`. -/
def pyIntOfString? (s : String) : Option Int :=
  let cs := pyStrip s.data
  let (sign, cs1) : Int × List Char :=
    match cs with
    | '-' :: r => (-1, r)
    | '+' :: r => (1, r)
    | _ => (1, cs)
  let (ds, cs2) := takeDigits cs1
  if ds.isEmpty then none
  else if cs2.isEmpty then some (sign * (digitsToNat ds : Int)) else none

/-- Python `float(v)` on a JSON value: numbers pass through, booleans
become 0 or 1, numeric strings parse; everything else (null, lists,
dicts, non-numeric strings) raises, modelled as `none`. -/
def pyFloatCoerce : JVal → Option ℚ
  | .num q => some q
  | .bool b => some (if b then 1 else 0)
  | .str s => pyFloat? s
  | _ => none

/-- Python `int(v)` on a JSON value: numbers truncate toward zero,
booleans become 0 or 1, integer strings parse; everything else raises,
modelled as `none`. -/
def pyIntCoerce : JVal → Option Int
  | .num q => some (q.num / (q.den : Int))
  | .bool b => some (if b then 1 else 0)
  | .str s => pyIntOfString? s
  | _ => none

/-! ### A JSON parser modelling `json.loads` -/

/-- Value of a hexadecimal digit. -/
def hexDigit (c : Char) : Option Nat :=
  if '0' ≤ c && c ≤ '9' then some (c.toNat - 48)
  else if 'a' ≤ c && c ≤ 'f' then some (c.toNat - 87)
  else if 'A' ≤ c && c ≤ 'F' then some (c.toNat - 55)
  else none

/-- Value of a four-digit hexadecimal escape. -/
def hexQuad (a b c d : Char) : Option Nat := do
  let va ← hexDigit a
  let vb ← hexDigit b
  let vc ← hexDigit c
  let vd ← hexDigit d
  pure (((va * 16 + vb) * 16 + vc) * 16 + vd)

/-- Single-character JSON escapes. -/
def unescapeChar : Char → Option Char
  | '"' => some '"'
  | '\\' => some '\\'
  | '/' => some '/'
  | 'b' => some (Char.ofNat 8)
  | 'f' => some (Char.ofNat 12)
  | 'n' => some '\n'
  | 'r' => some '\r'
  | 't' => some '\t'
  | _ => none

/-- Parses the body of a JSON string after the opening quote. -/
def parseJStrAux (acc : List Char) : List Char → Option (String × List Char)
  | '"' :: rest => some (⟨acc.reverse⟩, rest)
  | '\\' :: 'u' :: a :: b :: c :: d :: rest =>
    match hexQuad a b c d with
    | some n => parseJStrAux (Char.ofNat n :: acc) rest
    | none => none
  | '\\' :: e :: rest =>
    match unescapeChar e with
    | some ch => parseJStrAux (ch :: acc) rest
    | none => none
  | [] => none
  | ['\\'] => none
  | c :: rest => parseJStrAux (c :: acc) rest

/-- Exponent part of a JSON number, with what follows it. -/
def parseJNumExpTail (mant : ℚ) (fracLen : Nat) (cs : List Char) :
    Option (ℚ × List Char) :=
  let (esign, cs1) : Int × List Char :=
    match cs with
    | '-' :: r => (-1, r)
    | '+' :: r => (1, r)
    | _ => (1, cs)
  let (ed, cs2) := takeDigits cs1
  if ed.isEmpty then none
  else some (applyExp mant (esign * (digitsToNat ed : Int) - (fracLen : Int)), cs2)

/-- Optional exponent of a JSON number. -/
def parseJNumExp (mant : ℚ) (fracLen : Nat) (cs : List Char) :
    Option (ℚ × List Char) :=
  match cs with
  | 'e' :: r => parseJNumExpTail mant fracLen r
  | 'E' :: r => parseJNumExpTail mant fracLen r
  | _ => some (applyExp mant (-(fracLen : Int)), cs)

/-- JSON number grammar: optional minus, integer part with no leading
zeros, optional fraction, optional exponent. -/
def parseJNum (cs : List Char) : Option (ℚ × List Char) :=
  let (sign, cs1) : ℚ × List Char :=
    match cs with
    | '-' :: r => (-1, r)
    | _ => (1, cs)
  let (ip, cs2) := takeDigits cs1
  if ip.isEmpty then none
  else if 1 < ip.length && ip.head? == some '0' then none
  else
    match cs2 with
    | '.' :: r =>
      let (fp, cs3) := takeDigits r
      if fp.isEmpty then none
      else parseJNumExp (sign * (digitsToNat (ip ++ fp) : ℚ)) fp.length cs3
    | _ => parseJNumExp (sign * (digitsToNat ip : ℚ)) 0 cs2

/-- Inserts a key into a Python dict under construction: an existing
key keeps its position and takes the new value, a fresh key goes to the
end (`json.loads` keeps the last of duplicate keys this way). -/
def objInsert (fields : JObj) (k : String) (v : JVal) : JObj :=
  if fields.any (fun kv => kv.1 == k) then
    fields.map (fun kv => if kv.1 == k then (k, v) else kv)
  else fields ++ [(k, v)]

mutual

/-- Parses one JSON value at the head of the input (whitespace already
skipped), returning it with the unconsumed rest. Fuel only bounds the
recursion; any fuel beyond the input length is enough. -/
def parseJVal : Nat → List Char → Option (JVal × List Char)
  | 0, _ => none
  | _ + 1, 'n' :: 'u' :: 'l' :: 'l' :: rest => some (.null, rest)
  | _ + 1, 't' :: 'r' :: 'u' :: 'e' :: rest => some (.bool true, rest)
  | _ + 1, 'f' :: 'a' :: 'l' :: 's' :: 'e' :: rest => some (.bool false, rest)
  | _ + 1, '"' :: rest =>
    match parseJStrAux [] rest with
    | some (s, r) => some (.str s, r)
    | none => none
  | fuel + 1, '[' :: rest =>
    (match ltrimWs rest with
      | ']' :: r => some (.arr [], r)
      | r => parseJArr fuel [] r)
  | fuel + 1, '\x7b' :: rest =>
    (match ltrimWs rest with
      | '\x7d' :: r => some (.obj [], r)
      | r => parseJObj fuel [] r)
  | _ + 1, cs => (parseJNum cs).map (fun qr => (.num qr.1, qr.2))

/-- Parses the elements of a non-empty JSON array after the opening
bracket (whitespace skipped), accumulating in reverse. -/
def parseJArr : Nat → List JVal → List Char → Option (JVal × List Char)
  | 0, _, _ => none
  | fuel + 1, acc, cs =>
    match parseJVal fuel cs with
    | some (v, rest) =>
      (match ltrimWs rest with
        | ',' :: r => parseJArr fuel (v :: acc) (ltrimWs r)
        | ']' :: r => some (.arr (v :: acc).reverse, r)
        | _ => none)
    | none => none

/-- Parses the members of a non-empty JSON object after the opening
brace (whitespace skipped). -/
def parseJObj : Nat → JObj → List Char → Option (JVal × List Char)
  | 0, _, _ => none
  | fuel + 1, acc, cs =>
    match cs with
    | '"' :: rest =>
      (match parseJStrAux [] rest with
        | some (k, r1) =>
          (match ltrimWs r1 with
            | ':' :: r2 =>
              (match parseJVal fuel (ltrimWs r2) with
                | some (v, r3) =>
                  (match ltrimWs r3 with
                    | ',' :: r4 => parseJObj fuel (objInsert acc k v) (ltrimWs r4)
                    | '\x7d' :: r4 => some (.obj (objInsert acc k v), r4)
                    | _ => none)
                | none => none)
            | _ => none)
        | none => none)
    | _ => none

end

/-- Python `json.loads` on a character list: strips the whitespace the
JSON grammar allows around the document, parses one value, and requires
it to consume the whole input; `none` models `json.JSONDecodeError`. -/
def json_loads_chars (cs : List Char) : Option JVal :=
  let cs := pyStrip cs
  match parseJVal (2 * cs.length + 2) cs with
  | some (v, []) => some v
  | _ => none

/-- Python `json.loads` on a string. -/
def json_loads (s : String) : Option JVal := json_loads_chars s.data

/-! ### The payload extractor `parse_json_from_text` -/

/-- Python `text.split("\n")`: splits at every newline, keeping empty
pieces, so the result is always non-empty. -/
def splitOnNl (cs : List Char) : List (List Char) :=
  cs.foldr
    (fun c acc =>
      match acc with
      | g :: gs => if c == '\n' then [] :: g :: gs else (c :: g) :: gs
      | [] => [[c]])
    [[]]

/-- Python `"\n".join(lines)` on character lists. -/
def joinNl (ls : List (List Char)) : List Char := (ls.intersperse ['\n']).flatten

/-- The three-backtick fence marker. -/
def fenceChars : List Char := ['\x60', '\x60', '\x60']

/-- Embedding of `parse_json_from_text` (src/backend/main.py, lines
179-189): strip the text; if it starts with three backticks, drop the
first line and, when the stripped last line is exactly three backticks,
drop that line too; then `json.loads` the remainder. -/
def parse_json_from_text (text : String) : Option JVal :=
  let cleaned := pyStrip text.data
  let cleaned :=
    if fenceChars.isPrefixOf cleaned then
      let lines := (splitOnNl cleaned).drop 1
      let lines :=
        match lines.getLast? with
        | some last => if pyStrip last == fenceChars then lines.dropLast else lines
        | none => lines
      joinNl lines
    else cleaned
  json_loads_chars cleaned

example : pyFloat? "3" = some 3 := by decide
example : pyFloat? " -2.5e1 " = some (-25) := by decide
example : pyFloat? "3+" = none := by decide
example : pyFloat? "" = none := by decide
example : json_loads " \x7b\"a\": [1, 2.5, \"x\", true, null]\x7d " =
    some (.obj [("a", .arr [.num 1, .num (5 / 2), .str "x", .bool true, .null])]) := by
  rfl
example : parse_json_from_text "\x60\x60\x60json\n\x7b\"a\":1\x7d\n\x60\x60\x60" =
    some (.obj [("a", .num 1)]) := by rfl

/-! ### The typed domain records (the pydantic models of main.py) -/

/-- Pydantic `EldercareExperience`. -/
structure EldercareExperience where
  years : ℚ := 0
  conditions_experienced : List String := []
  tasks_performed : List String := []
  medical_care : List String := []

/-- Pydantic `ChildcareExperience`. -/
structure ChildcareExperience where
  years : ℚ := 0
  conditions_experienced : List String := []
  tasks_performed : List String := []
  age_range : List String := []

/-- Pydantic `SpecialNeedsExperience`. -/
structure SpecialNeedsExperience where
  years : ℚ := 0
  conditions_experienced : List String := []
  tasks_performed : List String := []
  therapies_supported : List String := []

/-- Pydantic `PostSurgeryExperience`. -/
structure PostSurgeryExperience where
  years : ℚ := 0
  surgeries_supported : List String := []
  tasks_performed : List String := []
  recovery_phases : List String := []

/-- Pydantic `DementiaExperience`. -/
structure DementiaExperience where
  years : ℚ := 0
  dementia_types : List String := []
  tasks_performed : List String := []
  stages_experienced : List String := []

/-- Pydantic `DisabilityExperience`. -/
structure DisabilityExperience where
  years : ℚ := 0
  disability_types : List String := []
  tasks_performed : List String := []
  specialized_skills : List String := []

/-- Pydantic `CaregivingExperience`: six optional slots. -/
structure CaregivingExperience where
  eldercare : Option EldercareExperience := none
  childcare : Option ChildcareExperience := none
  special_needs : Option SpecialNeedsExperience := none
  post_surgery : Option PostSurgeryExperience := none
  dementia : Option DementiaExperience := none
  disability : Option DisabilityExperience := none

/-- Pydantic `CaregiverProfile`. -/
structure CaregiverProfile where
  id : String := ""
  name : String
  careTypes : List String
  yearsOfExperience : ℚ
  languages : List String
  skills : List String
  certifications : List String
  summary : String
  rawText : String := ""
  caregiving_experience : Option CaregivingExperience := none

/-- Pydantic `MatchExplanation`. -/
structure MatchExplanation where
  overallFit : String
  strengths : List String
  gaps : List String
  recommendation : String
  caregiving_experience : Option CaregivingExperience := none

/-- Pydantic `MatchResult`. -/
structure MatchResult where
  caregiver : CaregiverProfile
  score : ℚ
  rank : Int
  match_badge : String
  explanation : MatchExplanation

/-! ### `sanitize_experience_data` (src/backend/main.py, lines 101-130) -/

/-- The coercion applied to a string-typed `years` value:
`float(years_value) if years_value.strip() else 0.0` inside a
`try/except` that falls back to `0.0` on `ValueError`. -/
def coerceYearsStr (s : String) : ℚ :=
  if (pyStrip s.data).isEmpty then 0 else (pyFloat? s).getD 0

/-- Embedding of the dict update `cleaned["years"] = v` on a mapping
that already holds the key: the binding keeps its position and takes
the new value. -/
def setYears (v : JVal) : JObj → JObj
  | [] => []
  | kv :: rest =>
    if kv.1 == "years" then ("years", v) :: setYears v rest
    else kv :: setYears v rest

/-- Embedding of `sanitize_experience_data`: an empty mapping stays
empty; a string `years` value is coerced via `coerceYearsStr` in place,
an explicit null becomes `0.0`, any other present value (including
numbers) passes through; a mapping without a `years` key, and every
field other than `years`, is returned unmodified. -/
def sanitize_experience_data (exp_data : JObj) : JObj :=
  if exp_data.isEmpty then []
  else
    match dictGet exp_data "years" with
    | none => exp_data
    | some (.str s) => setYears (.num (coerceYearsStr s)) exp_data
    | some .null => setYears (.num 0) exp_data
    | some _ => exp_data

/-! ### Constructing the typed experience records (pydantic validation) -/

/-- The `years` field of an experience record under pydantic lax
validation: absent defaults to 0, a number passes through, a numeric
string coerces, anything else is a validation error. -/
def pydanticYears (fs : JObj) : Option ℚ :=
  match dictGet fs "years" with
  | none => some 0
  | some (.num q) => some q
  | some (.str s) => pyFloat? s
  | some _ => none

/-- A `list[str]` field of an experience record: absent defaults to the
empty list, a list must contain only strings, anything else is a
validation error. -/
def pydanticStrList (fs : JObj) (k : String) : Option (List String) :=
  match dictGet fs k with
  | none => some []
  | some (.arr xs) => xs.mapM jStr?
  | some _ => none

/-- Pydantic construction `EldercareExperience(**fs)` (extra keys are
ignored, per the default pydantic config). -/
def mkEldercareExperience (fs : JObj) : Option EldercareExperience := do
  let y ← pydanticYears fs
  let ce ← pydanticStrList fs "conditions_experienced"
  let tp ← pydanticStrList fs "tasks_performed"
  let mc ← pydanticStrList fs "medical_care"
  pure ⟨y, ce, tp, mc⟩

/-- Pydantic construction `ChildcareExperience(**fs)`. -/
def mkChildcareExperience (fs : JObj) : Option ChildcareExperience := do
  let y ← pydanticYears fs
  let ce ← pydanticStrList fs "conditions_experienced"
  let tp ← pydanticStrList fs "tasks_performed"
  let ar ← pydanticStrList fs "age_range"
  pure ⟨y, ce, tp, ar⟩

/-- Pydantic construction `SpecialNeedsExperience(**fs)`. -/
def mkSpecialNeedsExperience (fs : JObj) : Option SpecialNeedsExperience := do
  let y ← pydanticYears fs
  let ce ← pydanticStrList fs "conditions_experienced"
  let tp ← pydanticStrList fs "tasks_performed"
  let th ← pydanticStrList fs "therapies_supported"
  pure ⟨y, ce, tp, th⟩

/-- Pydantic construction `PostSurgeryExperience(**fs)`. -/
def mkPostSurgeryExperience (fs : JObj) : Option PostSurgeryExperience := do
  let y ← pydanticYears fs
  let ss ← pydanticStrList fs "surgeries_supported"
  let tp ← pydanticStrList fs "tasks_performed"
  let rp ← pydanticStrList fs "recovery_phases"
  pure ⟨y, ss, tp, rp⟩

/-- Pydantic construction `DementiaExperience(**fs)`. -/
def mkDementiaExperience (fs : JObj) : Option DementiaExperience := do
  let y ← pydanticYears fs
  let dt ← pydanticStrList fs "dementia_types"
  let tp ← pydanticStrList fs "tasks_performed"
  let se ← pydanticStrList fs "stages_experienced"
  pure ⟨y, dt, tp, se⟩

/-- Pydantic construction `DisabilityExperience(**fs)`. -/
def mkDisabilityExperience (fs : JObj) : Option DisabilityExperience := do
  let y ← pydanticYears fs
  let dt ← pydanticStrList fs "disability_types"
  let tp ← pydanticStrList fs "tasks_performed"
  let sk ← pydanticStrList fs "specialized_skills"
  pure ⟨y, dt, tp, sk⟩

/-- One slot of the `CaregivingExperience(...)` construction: the code
builds `Mk(**sanitize_experience_data(data.get(k, \x7b\x7d)))` only when
`data.get(k)` is truthy, else leaves the slot `None`. A truthy
non-mapping raises inside `sanitize_experience_data` (`.copy()`), a
failed pydantic construction raises too; both are `.error`. -/
def buildSlot {α : Type} (mk : JObj → Option α) (v : JVal) : Except String (Option α) :=
  if v.truthy then
    match v with
    | .obj fs =>
      match mk (sanitize_experience_data fs) with
      | some a => .ok (some a)
      | none => .error "ValidationError"
    | _ => .error "AttributeError: copy on non-mapping"
  else .ok none

/-- The inner `CaregivingExperience(eldercare=..., ..., disability=...)`
construction shared by the resume path (lines 423-430) and the match
path (lines 606-613). -/
def assembleSlots (fs : JObj) : Except String CaregivingExperience := do
  let e ← buildSlot mkEldercareExperience (dictGetD fs "eldercare" .null)
  let c ← buildSlot mkChildcareExperience (dictGetD fs "childcare" .null)
  let sn ← buildSlot mkSpecialNeedsExperience (dictGetD fs "special-needs" .null)
  let ps ← buildSlot mkPostSurgeryExperience (dictGetD fs "post-surgery" .null)
  let d ← buildSlot mkDementiaExperience (dictGetD fs "dementia" .null)
  let di ← buildSlot mkDisabilityExperience (dictGetD fs "disability" .null)
  pure ⟨e, c, sn, ps, d, di⟩

/-- Resume-path aggregate assembly (lines 421-430): `None` unless the
extracted mapping is truthy, in which case the aggregate is built; a
truthy non-mapping raises at the first `.get`. -/
def extractCaregivingExperience (data : JVal) : Except String (Option CaregivingExperience) :=
  if data.truthy then
    match data with
    | .obj fs => (assembleSlots fs).map some
    | _ => .error "AttributeError: get on non-mapping"
  else .ok none

/-- Match-path aggregate assembly (lines 600-613): built only when the
value is truthy and a mapping (a truthy non-mapping is skipped, not an
error), after popping the descriptive `note` key. -/
def extractMatchCaregivingExperience (data : JVal) : Except String (Option CaregivingExperience) :=
  match data with
  | .obj fs =>
    if (JVal.obj fs).truthy then
      (assembleSlots (fs.filter (fun kv => kv.1 != "note"))).map some
    else .ok none
  | _ => .ok none

/-! ### Profile normalization pieces of `parse_resume` (lines 414-436) -/

/-- The closed care-type allow-list (line 415). -/
def valid_care_types : List String :=
  ["childcare", "eldercare", "special-needs", "post-surgery", "dementia",
    "disability", "not-applicable"]

/-- The list-comprehension filter of claimed care types (line 416). -/
def filterCareTypes (claimed : List String) : List String :=
  claimed.filter (fun ct => valid_care_types.contains ct)

/-- The `careTypes` argument of the profile constructor (line 435):
the filtered list, or the sentinel when the filter left nothing. -/
def normalizeCareTypes (claimed : List String) : List String :=
  let cts := filterCareTypes claimed
  if cts.isEmpty then ["No Relevant Experience"] else cts

/-- The raw years value resolved across the aliased field names
(line 436): `totalYearsOfExperience` first, then `yearsOfExperience`,
defaulting to the number 0. -/
def resolveYearsRaw (profile_data : JObj) : JVal :=
  dictGetD profile_data "totalYearsOfExperience"
    (dictGetD profile_data "yearsOfExperience" (.num 0))

/-- The `float(...)` coercion wrapped around the resolved years value
(line 436); `none` models the raised `ValueError`/`TypeError` that
aborts the request. -/
def yearsOfExperienceOf (profile_data : JObj) : Option ℚ :=
  pyFloatCoerce (resolveYearsRaw profile_data)

/-! ### Identity resolution in `match_caregivers` (lines 560-583) -/

/-- Lookup through the id index of line 561: the dict comprehension
`\x7bp.id: p for p in profiles\x7d` keys every profile by its id — the
empty id included — and keeps the last profile for a duplicate key. -/
def resolveById (profiles : List CaregiverProfile) (cid : String) : Option CaregiverProfile :=
  profiles.reverse.find? (fun p => p.id == cid)

/-- Lookup through the name index of line 562, keyed by lower-cased
profile name. -/
def resolveByName (profiles : List CaregiverProfile) (key : String) : Option CaregiverProfile :=
  profiles.reverse.find? (fun p => strLower p.name == key)

/-- Lines 575-579: resolve by id lookup first, else by lower-cased name
lookup. -/
def resolveProfile (profiles : List CaregiverProfile) (cid : String) (cname : String) :
    Option CaregiverProfile :=
  match resolveById profiles cid with
  | some p => some p
  | none => resolveByName profiles (strLower cname)

/-- Modelled from the spec: the resolution procedure as section 4.5
words it — the identifier index is built over profiles "by non-empty
identifier" only, the rest identical to the source. This definition
exists solely as the comparison point for claim C4; `resolveProfile`
above is the one taken from the source. -/
def resolveProfileSpec (profiles : List CaregiverProfile) (cid : String) (cname : String) :
    Option CaregiverProfile :=
  match (profiles.filter (fun p => p.id != "")).reverse.find? (fun p => p.id == cid) with
  | some p => some p
  | none => resolveByName profiles (strLower cname)

/-! ### Badge determination in `match_caregivers` (lines 620-632) -/

/-- The fallback badge thresholds (lines 624-632). -/
def computeFallbackBadge (score : ℚ) : String :=
  if 85 ≤ score then "Top Match"
  else if 70 ≤ score then "Strong Match"
  else if 50 ≤ score then "Good Match"
  else "No Match"

/-- Lines 621-632: the generator-supplied badge when truthy, otherwise
the score-derived fallback. A truthy non-string value would later be
rejected by the `match_badge: str` pydantic field, hence `.error`. -/
def resolveBadgeJ (b : JVal) (score : ℚ) : Except String String :=
  if b.truthy then jStrE b
  else .ok (computeFallbackBadge score)

/-- The four documented badge values. -/
def badgeValues : List String := ["Top Match", "Strong Match", "Good Match", "No Match"]

/-! ### Per-entry processing of the generator ranking (lines 564-648) -/

/-- The `key_strengths`/`gaps_or_considerations` coercion (lines
587-593) combined with the `list[str]` pydantic validation of the
`MatchExplanation` fields: a bare string is promoted to a one-element
list, a list must contain only strings, anything else fails
validation. -/
def coerceStrListField (v : JVal) : Except String (List String) :=
  match v with
  | .str s => .ok [s]
  | .arr xs =>
    match xs.mapM jStr? with
    | some l => .ok l
    | none => .error "ValidationError: list of str expected"
  | _ => .error "ValidationError: list of str expected"

/-- Lines 566-583: extract the candidate id and name from one ranking
entry and resolve it against the caller profiles — id lookup first (a
non-string id simply misses the string-keyed index), then lower-cased
name lookup; the name is only lowered (and must then be a string) when
the id lookup missed. `.ok none` is an unmatched entry, to be skipped. -/
def lookupEntryProfile (profiles : List CaregiverProfile) (fs : JObj) :
    Except String (Option CaregiverProfile) := do
  let cp := dictGetD fs "candidate_profile" (.obj [])
  let cn1 ← objGetD cp "candidate_name" (.str "")
  let cnameV := pyOr cn1 (dictGetD fs "name" (.str ""))
  let cidV := dictGetD fs "id" (.str "")
  match cidV with
  | .str cid =>
    match resolveById profiles cid with
    | some p => pure (some p)
    | none =>
      match cnameV with
      | .str s => pure (resolveByName profiles (strLower s))
      | _ => .error "AttributeError: lower on non-string"
  | _ =>
    match cnameV with
    | .str s => pure (resolveByName profiles (strLower s))
    | _ => .error "AttributeError: lower on non-string"

/-- Lines 565-648, one loop iteration: resolve the entry (skipped
entries give `.ok none`), read the match report, coerce strengths and
gaps, unpack `why_match` (structured object or legacy bare string),
read score and badge, and assemble the `MatchResult` with the
generator-proposed rank. Python `str(...)` applied to a truthy
non-string legacy `why_match` is left outside the model (`.error`); no
claim reaches it. -/
def processItem (profiles : List CaregiverProfile) (item : JVal) :
    Except String (Option MatchResult) :=
  match item with
  | .obj fs => do
    let prof? ← lookupEntryProfile profiles fs
    match prof? with
    | none => pure none
    | some profile =>
      let mr := dictGetD fs "match_report" (.obj [])
      let strengthsV ← objGetD mr "key_strengths" (.arr [])
      let strengths ← coerceStrListField strengthsV
      let gapsV ← objGetD mr "gaps_or_considerations" (.arr [])
      let gaps ← coerceStrListField gapsV
      let whyV ← objGetD mr "why_match" (.obj [])
      let fitExp ←
        match whyV with
        | .obj wfs => do
          let ef ← jStrE (dictGetD wfs "explanation" (.str ""))
          let me ← extractMatchCaregivingExperience (dictGetD wfs "caregiving_experience" (.obj []))
          pure (ef, me)
        | .str s => pure (s, (none : Option CaregivingExperience))
        | w =>
          if w.truthy then .error "str() of non-string why_match not modelled"
          else pure ("", (none : Option CaregivingExperience))
      let score ←
        match pyFloatCoerce (dictGetD fs "match_score" (.num 0)) with
        | some q => Except.ok q
        | none => Except.error "ValueError: float() of match_score"
      let badge ← resolveBadgeJ (dictGetD fs "match_badge" (.str "")) score
      let rank ←
        match pyIntCoerce (dictGetD fs "match_rank" (.num 0)) with
        | some n => Except.ok n
        | none => Except.error "ValueError: int() of match_rank"
      let recV ← objGetD mr "recommendation" (.str "")
      let recom ← jStrE recV
      pure (some
        { caregiver := profile
          score := score
          rank := rank
          match_badge := badge
          explanation :=
            { overallFit := fitExp.1
              strengths := strengths
              gaps := gaps
              recommendation := recom
              caregiving_experience := fitExp.2 } })
  | _ => .error "AttributeError: get on non-mapping entry"

/-- The accumulating loop over the generator entries (lines 564-648):
skipped entries contribute nothing, an error aborts the request. -/
def processItems (profiles : List CaregiverProfile) : List JVal → Except String (List MatchResult)
  | [] => .ok []
  | item :: rest => do
    let r? ← processItem profiles item
    let rs ← processItems profiles rest
    match r? with
    | some r => pure (r :: rs)
    | none => pure rs

/-! ### Rank reconciliation (lines 650-653) -/

/-- Stable insertion of one result into a list already sorted by score
descending: entries with strictly greater score stay in front, the new
entry goes before everything of equal or smaller score. -/
def insertDesc (a : MatchResult) : List MatchResult → List MatchResult
  | [] => [a]
  | x :: xs => if a.score < x.score then x :: insertDesc a xs else a :: x :: xs

/-- Embedding of `results.sort(key=lambda r: r.score, reverse=True)`:
Python's sort is stable, and a stable sort is a unique function of the
comes-before relation, realized here by stable insertion. -/
def sortByScoreDesc : List MatchResult → List MatchResult
  | [] => []
  | a :: l => insertDesc a (sortByScoreDesc l)

/-- The rank-overwriting loop of lines 652-653: position `i` (0-based)
gets rank `i + 1`. -/
def assignRanks (n : Nat) : List MatchResult → List MatchResult
  | [] => []
  | r :: rs => { r with rank := (n : Int) } :: assignRanks (n + 1) rs

/-- Lines 650-653: stable-sort by score descending, then reassign
contiguous 1-based ranks. -/
def reconcileRanks (results : List MatchResult) : List MatchResult :=
  assignRanks 1 (sortByScoreDesc results)

/-- The post-parse core of `match_caregivers` (lines 557-660): requires
the decoded payload to be a list, processes each entry, reconciles
ranks, and returns the final result list. -/
def match_caregivers_core (profiles : List CaregiverProfile) (matchData : JVal) :
    Except String (List MatchResult) :=
  match matchData with
  | .arr items => (processItems profiles items).map reconcileRanks
  | _ => .error "AI agent returned unexpected format"

/-! ### Concrete fixtures used by the claim theorems -/

/-- An empty match explanation for sample results. -/
def emptyExplanation : MatchExplanation :=
  { overallFit := "", strengths := [], gaps := [], recommendation := "" }

/-- A minimal caregiver profile with the given id and name. -/
def sampleProfile (pid nm : String) : CaregiverProfile :=
  { id := pid, name := nm, careTypes := ["eldercare"], yearsOfExperience := 1,
    languages := ["English"], skills := [], certifications := [],
    summary := "sample" }

/-- A resolved match result with the given name and score and a
generator-proposed rank of 0. -/
def sampleResult (nm : String) (sc : ℚ) : MatchResult :=
  { caregiver := sampleProfile "" nm, score := sc, rank := 0,
    match_badge := "No Match", explanation := emptyExplanation }

example :
    (reconcileRanks
        [sampleResult "A" 40, sampleResult "B" 90, sampleResult "C" 90,
          sampleResult "D" 10]).map (fun r => (r.caregiver.name, r.rank)) =
      [("B", 1), ("C", 2), ("A", 3), ("D", 4)] := by decide

example :
    (match_caregivers_core [sampleProfile "p1" "Jane"]
        (.arr [.obj [("id", .str "p1"), ("match_score", .num 90),
          ("match_badge", .str "Banana")]])).map (fun rs => rs.map (fun r => r.match_badge)) =
      .ok ["Banana"] := by rfl

/-! ### Claim C1 -/

/-- C1: for every ranking entry whose generator-supplied badge is empty
or absent, the badge is computed from the score alone by the total,
boundary-exact threshold table: `85 ≤ s` gives "Top Match",
`70 ≤ s < 85` gives "Strong Match", `50 ≤ s < 70` gives "Good Match",
`s < 50` gives "No Match"; in particular 85 gives "Top Match", 84.999
"Strong Match", 70 "Strong Match", 69.999 "Good Match", 50
"Good Match" and 49.999 "No Match". -/
theorem claim_C1_badge_fallback :
    (∀ (fs : JObj) (s : ℚ),
        dictGet fs "match_badge" = none ∨ dictGet fs "match_badge" = some (.str "") →
        resolveBadgeJ (dictGetD fs "match_badge" (.str "")) s =
          .ok (computeFallbackBadge s))
    ∧ (∀ s : ℚ, 85 ≤ s → computeFallbackBadge s = "Top Match")
    ∧ (∀ s : ℚ, 70 ≤ s → s < 85 → computeFallbackBadge s = "Strong Match")
    ∧ (∀ s : ℚ, 50 ≤ s → s < 70 → computeFallbackBadge s = "Good Match")
    ∧ (∀ s : ℚ, s < 50 → computeFallbackBadge s = "No Match")
    ∧ resolveBadgeJ (.str "") 85 = .ok "Top Match"
    ∧ resolveBadgeJ (.str "") (84999 / 1000) = .ok "Strong Match"
    ∧ resolveBadgeJ (.str "") 70 = .ok "Strong Match"
    ∧ resolveBadgeJ (.str "") (69999 / 1000) = .ok "Good Match"
    ∧ resolveBadgeJ (.str "") 50 = .ok "Good Match"
    ∧ resolveBadgeJ (.str "") (49999 / 1000) = .ok "No Match" := by
  refine ⟨?_, ?_, ?_, ?_, ?_, by rfl, by rfl, by rfl, by rfl, by rfl, by rfl⟩
  · intro fs s h
    rcases h with h | h <;> simp [resolveBadgeJ, dictGetD, h, JVal.truthy]
  · intro s hs
    simp only [computeFallbackBadge, if_pos hs]
  · intro s h1 h2
    simp only [computeFallbackBadge]
    rw [if_neg (not_le.mpr h2), if_pos h1]
  · intro s h1 h2
    simp only [computeFallbackBadge]
    rw [if_neg (not_le.mpr (lt_trans h2 (by norm_num))), if_neg (not_le.mpr h2), if_pos h1]
  · intro s h1
    simp only [computeFallbackBadge]
    rw [if_neg (not_le.mpr (lt_trans h1 (by norm_num))),
      if_neg (not_le.mpr (lt_trans h1 (by norm_num))), if_neg (not_le.mpr h1)]

/-- Witness for C1 at a concrete entry and score. -/
theorem claim_C1_badge_fallback_witness :
    resolveBadgeJ (dictGetD [("match_score", JVal.num 90)] "match_badge" (.str "")) 90 =
      .ok (computeFallbackBadge 90)
    ∧ computeFallbackBadge 90 = "Top Match" :=
  ⟨claim_C1_badge_fallback.1 [("match_score", JVal.num 90)] 90 (Or.inl rfl),
    claim_C1_badge_fallback.2.1 90 (by norm_num)⟩

/-! ### Claim C6 -/

/-- C6: the normalized `careTypes` list is never empty — the claimed
care types are filtered against the closed allow-list, unrecognized
values are discarded (the survivors are exactly the filter's output),
and an empty filter result is replaced by the single sentinel
`"No Relevant Experience"`; in particular `["invalid-type"]` becomes
`["No Relevant Experience"]`. -/
theorem claim_C6_care_types_never_empty :
    (∀ claimed : List String,
        normalizeCareTypes claimed ≠ []
        ∧ (∀ ct ∈ normalizeCareTypes claimed,
            ct ∈ valid_care_types ∨ ct = "No Relevant Experience")
        ∧ (filterCareTypes claimed = [] →
            normalizeCareTypes claimed = ["No Relevant Experience"])
        ∧ (filterCareTypes claimed ≠ [] →
            normalizeCareTypes claimed = filterCareTypes claimed))
    ∧ normalizeCareTypes ["invalid-type"] = ["No Relevant Experience"] := by
  refine ⟨fun claimed => ?_, by decide⟩
  by_cases h : filterCareTypes claimed = []
  · refine ⟨?_, ?_, fun _ => ?_, fun hc => absurd h hc⟩ <;>
      simp [normalizeCareTypes, h]
  · have hne : (filterCareTypes claimed).isEmpty = false := by
      simpa [List.isEmpty_iff] using h
    refine ⟨?_, ?_, fun hc => absurd hc h, fun _ => ?_⟩
    · simpa [normalizeCareTypes, hne] using h
    · intro ct hct
      rw [normalizeCareTypes] at hct
      simp only [hne, Bool.false_eq_true, if_false] at hct
      left
      have h2 : ct ∈ claimed ∧ ct ∈ valid_care_types := by
        simpa [filterCareTypes] using hct
      exact h2.2
    · simp [normalizeCareTypes, hne]

/-- Witness for C6 at a concrete claimed list. -/
theorem claim_C6_care_types_never_empty_witness :
    normalizeCareTypes ["eldercare", "bogus-care"] ≠ [] ∧
      normalizeCareTypes ["eldercare", "bogus-care"] = filterCareTypes ["eldercare", "bogus-care"] :=
  ⟨(claim_C6_care_types_never_empty.1 ["eldercare", "bogus-care"]).1,
    (claim_C6_care_types_never_empty.1 ["eldercare", "bogus-care"]).2.2.2 (by decide)⟩

/-! ### Claim C7 -/

/-- C7 counterexample: the years coercion of `parse_resume` (line 436)
is not total — a non-numeric string or an explicit null resolved from
the aliased fields makes `float(...)` raise (modelled as `none`), so
normalization does reject such input with a fatal error. -/
theorem claim_C7_counterexample :
    yearsOfExperienceOf [("totalYearsOfExperience", .str "unknown")] = none
    ∧ yearsOfExperienceOf [("totalYearsOfExperience", .null)] = none :=
  ⟨rfl, rfl⟩

/-- C7 as amended: the years value is resolved across the aliased field
names (`totalYearsOfExperience` first, then `yearsOfExperience`) and
coerced with Python `float`, defaulting to 0 only when both fields are
absent; the coercion passes numbers through and parses numeric strings,
but a null or non-numeric resolved value raises a fatal error, so the
coercion is not total. -/
theorem claim_C7_years_resolution :
    (∀ pd : JObj, dictGet pd "totalYearsOfExperience" = none →
        dictGet pd "yearsOfExperience" = none → yearsOfExperienceOf pd = some 0)
    ∧ (∀ (pd : JObj) (v : JVal), dictGet pd "totalYearsOfExperience" = some v →
        yearsOfExperienceOf pd = pyFloatCoerce v)
    ∧ (∀ (pd : JObj) (v : JVal), dictGet pd "totalYearsOfExperience" = none →
        dictGet pd "yearsOfExperience" = some v → yearsOfExperienceOf pd = pyFloatCoerce v)
    ∧ (∀ q : ℚ, pyFloatCoerce (.num q) = some q)
    ∧ (pyFloat? "3" = some 3 ∧ pyFloatCoerce (.str "3") = some 3)
    ∧ pyFloatCoerce .null = none := by
  refine ⟨?_, ?_, ?_, fun q => rfl, ⟨rfl, rfl⟩, rfl⟩
  · intro pd h1 h2
    simp [yearsOfExperienceOf, resolveYearsRaw, dictGetD, h1, h2, pyFloatCoerce]
  · intro pd v h1
    simp [yearsOfExperienceOf, resolveYearsRaw, dictGetD, h1]
  · intro pd v h1 h2
    simp [yearsOfExperienceOf, resolveYearsRaw, dictGetD, h1, h2]

/-- Witness for C7 at concrete profile mappings. -/
theorem claim_C7_years_resolution_witness :
    yearsOfExperienceOf [("name", JVal.str "A")] = some 0
    ∧ yearsOfExperienceOf [("totalYearsOfExperience", JVal.num 7)] = pyFloatCoerce (.num 7) :=
  ⟨claim_C7_years_resolution.1 [("name", JVal.str "A")] rfl rfl,
    claim_C7_years_resolution.2.1 [("totalYearsOfExperience", JVal.num 7)] (.num 7) rfl⟩

/-! ### Claim C9 -/

/-- The ranking entry of the C9 counterexample: a resolvable id, a score
of 90, and a generator-supplied badge outside the four documented
values. -/
def c9Item : JVal :=
  .obj [("id", .str "p1"), ("match_score", .num 90), ("match_badge", .str "Banana")]

/-- C9 counterexample: a non-empty generator-supplied badge is passed
through unvalidated, so a returned `MatchResult` can carry a badge
outside the four documented values. -/
theorem claim_C9_counterexample :
    (match_caregivers_core [sampleProfile "p1" "Jane"] (.arr [c9Item])).map
        (fun rs => rs.map (fun r => r.match_badge)) = .ok ["Banana"]
    ∧ "Banana" ∉ badgeValues :=
  ⟨rfl, by decide⟩

/-- C9 as amended: the badge of a returned `MatchResult` is one of the
four documented values whenever the generator-supplied badge is falsy
(empty or absent), since the score-derived fallback only produces those
four; a truthy generator-supplied badge string is passed through
unvalidated and may be any string. -/
theorem claim_C9_badge_values :
    (∀ s : ℚ, computeFallbackBadge s ∈ badgeValues)
    ∧ (∀ (b : JVal) (s : ℚ), b.truthy = false →
        resolveBadgeJ b s = .ok (computeFallbackBadge s))
    ∧ (∀ (t : String) (s : ℚ), t ≠ "" → resolveBadgeJ (.str t) s = .ok t) := by
  refine ⟨?_, ?_, ?_⟩
  · intro s
    unfold computeFallbackBadge
    split_ifs <;> simp [badgeValues]
  · intro b s h
    simp [resolveBadgeJ, h]
  · intro t s h
    simp [resolveBadgeJ, JVal.truthy, jStrE, h]

/-- Witness for C9 at a concrete badge and score. -/
theorem claim_C9_badge_values_witness :
    computeFallbackBadge 60 ∈ badgeValues
    ∧ resolveBadgeJ (.str "") 60 = .ok (computeFallbackBadge 60)
    ∧ resolveBadgeJ (.str "Banana") 90 = .ok "Banana" :=
  ⟨claim_C9_badge_values.1 60,
    claim_C9_badge_values.2.1 (.str "") 60 (by decide),
    claim_C9_badge_values.2.2 "Banana" 90 (by decide)⟩

/-! ### Claim C4 -/

/-- First profile of the C4 counterexample: empty id. -/
def c4ProfileA : CaregiverProfile := sampleProfile "" "A"

/-- Second profile of the C4 counterexample: the one the spec's
procedure would select by name. -/
def c4ProfileB : CaregiverProfile := sampleProfile "x" "B"

/-- C4 counterexample: the code builds its id index over every profile,
empty ids included (line 561 has no non-empty filter). For profiles
`[{id:"", name:"A"}, {id:"x", name:"B"}]` and an entry with empty id
naming "b", the spec-described procedure (id index over non-empty ids
only) resolves to B by name, but the code resolves to A through the
empty-id identifier match. -/
theorem claim_C4_counterexample :
    resolveProfileSpec [c4ProfileA, c4ProfileB] "" "b" = some c4ProfileB
    ∧ resolveProfile [c4ProfileA, c4ProfileB] "" "b" = some c4ProfileA
    ∧ c4ProfileA ≠ c4ProfileB := by
  refine ⟨rfl, rfl, fun h => ?_⟩
  exact absurd (congrArg CaregiverProfile.name h) (by decide)

/-- C4 as amended: the identifier index is built over all profiles,
empty identifiers included (the later profile wins a duplicated id);
each entry resolves by identifier lookup first — so an entry with empty
or absent id matches a profile whose id is empty when one exists — and
only when no identifier matches by case-insensitive full-name lookup;
an entry matching neither is dropped from the results without error.
The Jane Doe example still resolves successfully, through the empty-id
identifier match. -/
theorem claim_C4_identity_resolution :
    (∀ (ps : List CaregiverProfile) (cid cname : String),
        (∀ p ∈ ps, p.id ≠ cid) →
        resolveProfile ps cid cname = resolveByName ps (strLower cname))
    ∧ (∀ (ps : List CaregiverProfile) (cid cname : String) (p : CaregiverProfile),
        resolveById ps cid = some p → resolveProfile ps cid cname = some p)
    ∧ (∀ (ps : List CaregiverProfile) (fs : JObj),
        lookupEntryProfile ps fs = .ok none → processItem ps (.obj fs) = .ok none)
    ∧ resolveProfile [sampleProfile "" "Jane Doe"] "" "jane doe" =
        some (sampleProfile "" "Jane Doe")
    ∧ resolveById [sampleProfile "" "Jane Doe"] "" = some (sampleProfile "" "Jane Doe")
    ∧ resolveByName [sampleProfile "" "Jane Doe"] (strLower "jane doe") =
        some (sampleProfile "" "Jane Doe") := by
  refine ⟨?_, ?_, ?_, rfl, rfl, rfl⟩
  · intro ps cid cname h
    have hnone : resolveById ps cid = none := by
      rw [resolveById, List.find?_eq_none]
      intro p hp
      simpa using h p (List.mem_reverse.mp hp)
    rw [resolveProfile, hnone]
  · intro ps cid cname p h
    rw [resolveProfile, h]
  · intro ps fs h
    simp only [processItem, h]
    rfl

/-- Witness for C4 at concrete profile lists and entries. -/
theorem claim_C4_identity_resolution_witness :
    resolveProfile [sampleProfile "y" "Nora"] "z" "NORA" =
      resolveByName [sampleProfile "y" "Nora"] (strLower "NORA")
    ∧ resolveProfile [c4ProfileA, c4ProfileB] "x" "zzz" = some c4ProfileB
    ∧ processItem [c4ProfileB] (.obj [("id", .str "nomatch"), ("name", .str "nobody")]) =
        .ok none :=
  ⟨claim_C4_identity_resolution.1 [sampleProfile "y" "Nora"] "z" "NORA"
      (by intro p hp; simp [sampleProfile] at hp; simp [hp, sampleProfile]),
    claim_C4_identity_resolution.2.1 [c4ProfileA, c4ProfileB] "x" "zzz" c4ProfileB rfl,
    claim_C4_identity_resolution.2.2.1 [c4ProfileB]
      [("id", .str "nomatch"), ("name", .str "nobody")] rfl⟩

/-! ### Claim C5 -/

theorem dictGet_cons (k1 : String) (w : JVal) (rest : JObj) (k : String) :
    dictGet ((k1, w) :: rest) k = if k1 == k then some w else dictGet rest k := by
  by_cases h : (k1 == k) = true
  · simp [dictGet, List.find?_cons, h]
  · have hb : (k1 == k) = false := by simpa using h
    simp [dictGet, List.find?_cons, hb]

theorem dictGet_setYears (v : JVal) (fs : JObj) :
    dictGet (setYears v fs) "years" = (dictGet fs "years").map (fun _ => v) := by
  induction fs with
  | nil => rfl
  | cons kv rest ih =>
    rcases kv with ⟨k, w⟩
    rw [setYears]
    by_cases h : (k == "years") = true
    · rw [if_pos h, dictGet_cons, dictGet_cons, if_pos (by rfl : ("years" == "years") = true),
        if_pos h]
      rfl
    · have hb : (k == "years") = false := by simpa using h
      rw [if_neg h, dictGet_cons, dictGet_cons, if_neg (by simp [hb]), if_neg (by simp [hb])]
      exact ih

theorem dictGet_setYears_ne (v : JVal) (fs : JObj) (k : String) (hk : k ≠ "years") :
    dictGet (setYears v fs) k = dictGet fs k := by
  induction fs with
  | nil => rfl
  | cons kv rest ih =>
    rcases kv with ⟨k1, w⟩
    rw [setYears]
    by_cases h : (k1 == "years") = true
    · have hy : ("years" == k) = false := by
        simp only [beq_eq_false_iff_ne, ne_eq]
        exact fun hh => hk hh.symm
      have hk1 : (k1 == k) = false := by
        have hki : k1 = "years" := by simpa using h
        subst hki
        exact hy
      rw [if_pos h, dictGet_cons, dictGet_cons, if_neg (by simp [hy]), if_neg (by simp [hk1])]
      exact ih
    · rw [if_neg h, dictGet_cons, dictGet_cons]
      by_cases h2 : (k1 == k) = true
      · rw [if_pos h2, if_pos h2]
      · have hb2 : (k1 == k) = false := by simpa using h2
        rw [if_neg (by simp [hb2]), if_neg (by simp [hb2])]
        exact ih

theorem coerceYearsStr_of_parse_fail (s : String) (h : pyFloat? s = none) :
    coerceYearsStr s = 0 := by
  rw [coerceYearsStr]
  by_cases hE : (pyStrip s.data).isEmpty
  · rw [if_pos hE]
  · rw [if_neg hE, h]
    rfl

theorem coerceYearsStr_of_parse_ok (s : String) (q : ℚ) (h : pyFloat? s = some q) :
    coerceYearsStr s = q := by
  rw [coerceYearsStr]
  by_cases hE : (pyStrip s.data).isEmpty
  · rw [pyFloat?] at h
    simp only [hE, if_true] at h
    cases h
  · rw [if_neg hE, h]
    rfl

/-- C5 counterexample: the sanitizer does not map an absent `years`
field to `0.0` — a mapping without a `years` key is returned unchanged,
with no `years` binding at all (the typed record's field default, not
the sanitizer, later supplies 0). -/
theorem claim_C5_counterexample :
    sanitize_experience_data [("tasks_performed", .arr [])] = [("tasks_performed", .arr [])]
    ∧ dictGet (sanitize_experience_data [("tasks_performed", .arr [])]) "years" = none
    ∧ dictGet (sanitize_experience_data [("tasks_performed", .arr [])]) "years" ≠
        some (.num 0) :=
  ⟨rfl, rfl, fun h => nomatch h⟩

/-- C5 as amended: the sanitizer maps a `years` field holding a
numeric-looking string to its parsed value, a blank or otherwise
unparseable string to `0.0`, and an explicit null to `0.0`; an
already-numeric value, and a mapping whose `years` field is absent,
pass through unchanged (the absent field stays absent — the typed
record's default later supplies `0.0`); all fields other than `years`
are unmodified. -/
theorem claim_C5_sanitize_years :
    (∀ fs : JObj, dictGet fs "years" = some .null →
        dictGet (sanitize_experience_data fs) "years" = some (.num 0))
    ∧ (∀ (fs : JObj) (s : String), dictGet fs "years" = some (.str s) →
        pyFloat? s = none →
        dictGet (sanitize_experience_data fs) "years" = some (.num 0))
    ∧ (∀ (fs : JObj) (s : String) (q : ℚ), dictGet fs "years" = some (.str s) →
        pyFloat? s = some q →
        dictGet (sanitize_experience_data fs) "years" = some (.num q))
    ∧ (∀ (fs : JObj) (q : ℚ), dictGet fs "years" = some (.num q) →
        dictGet (sanitize_experience_data fs) "years" = some (.num q))
    ∧ (∀ fs : JObj, dictGet fs "years" = none →
        sanitize_experience_data fs = fs)
    ∧ (∀ (fs : JObj) (k : String), k ≠ "years" →
        dictGet (sanitize_experience_data fs) k = dictGet fs k)
    ∧ sanitize_experience_data [("years", .str "")] = [("years", .num 0)]
    ∧ sanitize_experience_data [("years", .str "3+")] = [("years", .num 0)]
    ∧ sanitize_experience_data [("years", .str "3")] = [("years", .num 3)] := by
  refine ⟨?_, ?_, ?_, ?_, ?_, ?_, rfl, rfl, rfl⟩
  · intro fs h
    cases fs with
    | nil => cases h
    | cons kv rest =>
      rw [sanitize_experience_data]
      simp [h, dictGet_setYears]
  · intro fs s h hp
    cases fs with
    | nil => cases h
    | cons kv rest =>
      rw [sanitize_experience_data]
      simp [h, dictGet_setYears, coerceYearsStr_of_parse_fail s hp]
  · intro fs s q h hp
    cases fs with
    | nil => cases h
    | cons kv rest =>
      rw [sanitize_experience_data]
      simp [h, dictGet_setYears, coerceYearsStr_of_parse_ok s q hp]
  · intro fs q h
    cases fs with
    | nil => cases h
    | cons kv rest =>
      rw [sanitize_experience_data]
      simp [h]
  · intro fs h
    cases fs with
    | nil => rfl
    | cons kv rest =>
      rw [sanitize_experience_data]
      simp [h]
  · intro fs k hk
    cases fs with
    | nil => rfl
    | cons kv rest =>
      rw [sanitize_experience_data]
      rcases hy : dictGet (kv :: rest) "years" with _ | v
      · simp [hy]
      · cases v <;> simp [hy, dictGet_setYears_ne _ _ k hk]

/-! ### Claims C2 and C3 -/

/-- Removes the (reassigned) rank so that lists can be compared modulo
rank overwriting. -/
def stripRank (r : MatchResult) : MatchResult := { r with rank := 0 }

theorem mem_insertDesc (a b : MatchResult) (l : List MatchResult) :
    b ∈ insertDesc a l ↔ b = a ∨ b ∈ l := by
  induction l with
  | nil => simp [insertDesc]
  | cons x xs ih =>
    rw [insertDesc]
    by_cases h : a.score < x.score
    · rw [if_pos h]
      simp only [List.mem_cons, ih]
      tauto
    · rw [if_neg h]
      simp [List.mem_cons]

theorem insertDesc_pairwise (a : MatchResult) (l : List MatchResult)
    (hl : l.Pairwise (fun x y => y.score ≤ x.score)) :
    (insertDesc a l).Pairwise (fun x y => y.score ≤ x.score) := by
  induction l with
  | nil => simp [insertDesc]
  | cons x xs ih =>
    rw [insertDesc]
    by_cases h : a.score < x.score
    · rw [if_pos h]
      refine List.Pairwise.cons ?_ (ih hl.tail)
      intro b hb
      rcases (mem_insertDesc a b xs).mp hb with rfl | hbx
      · exact le_of_lt h
      · exact (List.pairwise_cons.mp hl).1 b hbx
    · rw [if_neg h]
      have hxa : x.score ≤ a.score := le_of_not_lt h
      refine List.Pairwise.cons ?_ hl
      intro b hb
      rcases List.mem_cons.mp hb with rfl | hbx
      · exact hxa
      · exact le_trans ((List.pairwise_cons.mp hl).1 b hbx) hxa

theorem sortByScoreDesc_pairwise (l : List MatchResult) :
    (sortByScoreDesc l).Pairwise (fun x y => y.score ≤ x.score) := by
  induction l with
  | nil => exact List.Pairwise.nil
  | cons a l ih => exact insertDesc_pairwise a _ ih

theorem insertDesc_length (a : MatchResult) (l : List MatchResult) :
    (insertDesc a l).length = l.length + 1 := by
  induction l with
  | nil => rfl
  | cons x xs ih =>
    rw [insertDesc]
    by_cases h : a.score < x.score
    · simp [if_pos h, ih]
    · simp [if_neg h]

theorem sortByScoreDesc_length (l : List MatchResult) :
    (sortByScoreDesc l).length = l.length := by
  induction l with
  | nil => rfl
  | cons a l ih => simp [sortByScoreDesc, insertDesc_length, ih]

theorem insertDesc_filter (a : MatchResult) (l : List MatchResult) (s : ℚ) :
    (insertDesc a l).filter (fun r => decide (r.score = s)) =
      if a.score = s then a :: l.filter (fun r => decide (r.score = s))
      else l.filter (fun r => decide (r.score = s)) := by
  induction l with
  | nil =>
    rw [insertDesc]
    by_cases h : a.score = s
    · simp [List.filter_cons, h]
    · simp [List.filter_cons, h]
  | cons x xs ih =>
    rw [insertDesc]
    by_cases h : a.score < x.score
    · rw [if_pos h]
      by_cases hx : x.score = s
      · have ha : ¬a.score = s := by
          intro hh
          rw [hh, hx] at h
          exact lt_irrefl s h
        simp [List.filter_cons, hx, ha, ih]
      · by_cases ha : a.score = s
        · simp [List.filter_cons, hx, ha, ih]
        · simp [List.filter_cons, hx, ha, ih]
    · rw [if_neg h]
      by_cases ha : a.score = s <;> by_cases hx : x.score = s <;>
        simp [List.filter_cons, ha, hx]

theorem sortByScoreDesc_filter (l : List MatchResult) (s : ℚ) :
    (sortByScoreDesc l).filter (fun r => decide (r.score = s)) =
      l.filter (fun r => decide (r.score = s)) := by
  induction l with
  | nil => rfl
  | cons a l ih =>
    rw [sortByScoreDesc, insertDesc_filter]
    by_cases ha : a.score = s
    · simp [List.filter_cons, ha, ih]
    · simp [List.filter_cons, ha, ih]

theorem assignRanks_length (n : Nat) (l : List MatchResult) :
    (assignRanks n l).length = l.length := by
  induction l generalizing n with
  | nil => rfl
  | cons r rs ih => simp [assignRanks, ih]

theorem assignRanks_get (n : Nat) (l : List MatchResult) (i : Nat) (h : i < l.length)
    (h2 : i < (assignRanks n l).length) :
    (assignRanks n l).get ⟨i, h2⟩ = { l.get ⟨i, h⟩ with rank := ((n + i : Nat) : Int) } := by
  induction l generalizing n i with
  | nil => cases h
  | cons r rs ih =>
    cases i with
    | zero => simp [assignRanks]
    | succ j =>
      have hj : j < rs.length := by simpa using h
      have hj2 : j < (assignRanks (n + 1) rs).length := by
        rw [assignRanks_length]
        exact hj
      have step := ih (n + 1) j hj hj2
      show (assignRanks (n + 1) rs).get ⟨j, hj2⟩ = _
      rw [step]
      have harith : n + 1 + j = n + (j + 1) := by omega
      rw [harith]
      rfl

theorem assignRanks_filter_strip (n : Nat) (l : List MatchResult) (s : ℚ) :
    ((assignRanks n l).filter (fun r => decide (r.score = s))).map stripRank =
      (l.filter (fun r => decide (r.score = s))).map stripRank := by
  induction l generalizing n with
  | nil => rfl
  | cons r rs ih =>
    rw [assignRanks]
    by_cases h : r.score = s
    · simp [List.filter_cons, h, stripRank, ih]
    · simp [List.filter_cons, h, ih]

theorem assignRanks_chain (n : Nat) (l : List MatchResult)
    (hs : l.Pairwise (fun x y => y.score ≤ x.score)) :
    List.Chain' (fun x y => x.rank < y.rank ∧ y.score ≤ x.score) (assignRanks n l) := by
  induction hs generalizing n with
  | nil => exact List.chain'_nil
  | @cons a l hhead htail ih =>
    rw [assignRanks]
    rcases l with _ | ⟨x, xs⟩
    · exact List.chain'_singleton _
    · rw [assignRanks]
      refine List.Chain'.cons ⟨?_, ?_⟩ ?_
      · show (n : Int) < ((n + 1 : Nat) : Int)
        exact_mod_cast Nat.lt_succ_self n
      · show x.score ≤ a.score
        exact hhead x (List.mem_cons_self x xs)
      · have h2 := ih (n + 1)
        rw [assignRanks] at h2
        exact h2

/-- C2: rank reconciliation stable-sorts by score descending and
reassigns contiguous 1-based ranks overwriting any generator-proposed
rank: in the returned list every adjacent pair has strictly increasing
rank and non-increasing score, position `i` carries rank `i + 1`, the
length is preserved, and for every score the entries carrying it appear
in their original relative order (compared with the overwritten rank
removed). -/
theorem claim_C2_rank_reconciliation :
    ∀ rs : List MatchResult,
      List.Chain' (fun x y => x.rank < y.rank ∧ y.score ≤ x.score) (reconcileRanks rs)
      ∧ (reconcileRanks rs).length = rs.length
      ∧ (∀ (i : Nat) (h : i < (reconcileRanks rs).length),
          ((reconcileRanks rs).get ⟨i, h⟩).rank = i + 1)
      ∧ (∀ s : ℚ,
          ((reconcileRanks rs).filter (fun r => decide (r.score = s))).map stripRank =
            (rs.filter (fun r => decide (r.score = s))).map stripRank) := by
  intro rs
  refine ⟨?_, ?_, ?_, ?_⟩
  · exact assignRanks_chain 1 _ (sortByScoreDesc_pairwise rs)
  · rw [reconcileRanks, assignRanks_length, sortByScoreDesc_length]
  · intro i h
    have hlen : i < (sortByScoreDesc rs).length := by
      have h2 := h
      rw [reconcileRanks, assignRanks_length] at h2
      exact h2
    have step := assignRanks_get 1 (sortByScoreDesc rs) i hlen h
    show ((assignRanks 1 (sortByScoreDesc rs)).get ⟨i, h⟩).rank = (i : Int) + 1
    rw [step]
    show ((1 + i : Nat) : Int) = (i : Int) + 1
    push_cast
    omega
  · intro s
    rw [reconcileRanks, assignRanks_filter_strip, sortByScoreDesc_filter]

/-- Witness for C2 at a concrete two-entry list. -/
theorem claim_C2_rank_reconciliation_witness :
    ((reconcileRanks [sampleResult "A" 40, sampleResult "B" 90]).filter
        (fun r => decide (r.score = 90))).map stripRank =
      ([sampleResult "A" 40, sampleResult "B" 90].filter
        (fun r => decide (r.score = 90))).map stripRank :=
  (claim_C2_rank_reconciliation [sampleResult "A" 40, sampleResult "B" 90]).2.2.2 90

/-- The C3 input: resolved results with scores 40, 90, 90, 10 in
original order, distinguished by caregiver name. -/
def c3Results : List MatchResult :=
  [sampleResult "A" 40, sampleResult "B" 90, sampleResult "C" 90, sampleResult "D" 10]

/-- C3 counterexample: for scores [40, 90, 90, 10] the claimed rank
vector [4, 1, 2, 3] is wrong — the first entry (score 40) receives
rank 3, not 4, and the last entry (score 10) receives rank 4, not 3. -/
theorem claim_C3_counterexample :
    ((reconcileRanks c3Results).find? (fun r => r.caregiver.name == "A")).map
        (fun r => r.rank) = some 3
    ∧ ((reconcileRanks c3Results).find? (fun r => r.caregiver.name == "A")).map
        (fun r => r.rank) ≠ some 4
    ∧ ((reconcileRanks c3Results).find? (fun r => r.caregiver.name == "D")).map
        (fun r => r.rank) = some 4 := by
  refine ⟨by decide, by decide, by decide⟩

/-- C3 as amended: for scores [40, 90, 90, 10] in original order, the
reconciled ranks in original-entry order are [3, 1, 2, 4] — the
returned list is B, C, A, D with ranks 1, 2, 3, 4, and stability keeps
the two entries scoring 90 in their original relative order (B before
C). -/
theorem claim_C3_concrete_ranks :
    (reconcileRanks c3Results).map (fun r => (r.caregiver.name, r.rank)) =
      [("B", 1), ("C", 2), ("A", 3), ("D", 4)] := by decide

/-! ### Claim C8 -/

/-- C8: for input with no fence marker the extractor returns exactly
what `json.loads` returns on the input (equivalently, on the stripped
input: `json.loads` itself ignores surrounding whitespace); and the
fenced input returns the mapping a=1, the same value as parsing the
unwrapped content. -/
theorem claim_C8_payload_extractor :
    (∀ t : String, fenceChars.isPrefixOf (pyStrip t.data) = false →
        parse_json_from_text t = json_loads t
        ∧ parse_json_from_text t = json_loads (pyStripS t))
    ∧ parse_json_from_text "\x60\x60\x60json\n\x7b\"a\":1\x7d\n\x60\x60\x60" =
        some (.obj [("a", .num 1)])
    ∧ json_loads "\x7b\"a\":1\x7d" = some (.obj [("a", .num 1)]) := by
  refine ⟨?_, rfl, rfl⟩
  intro t h
  have key : parse_json_from_text t = json_loads_chars (pyStrip t.data) := by
    rw [parse_json_from_text]
    simp only [h, Bool.false_eq_true, if_false]
  refine ⟨?_, ?_⟩
  · rw [key, json_loads]
    rw [json_loads_chars, json_loads_chars, pyStrip_pyStrip]
  · rw [key, json_loads, pyStripS]

/-- Witness for C8 at a concrete unfenced input. -/
theorem claim_C8_payload_extractor_witness :
    parse_json_from_text " \x7b\"a\": 1\x7d " = json_loads " \x7b\"a\": 1\x7d " :=
  (claim_C8_payload_extractor.1 " \x7b\"a\": 1\x7d " (by decide)).1

/-! ### Claim C10 -/

/-- The six care-type slot keys read by the assembler. -/
def sixSlotKeys : List String :=
  ["eldercare", "childcare", "special-needs", "post-surgery", "dementia", "disability"]

theorem dictGet_filter_note (fs : JObj) (k : String) (hk : k ≠ "note") :
    dictGet (fs.filter (fun kv => kv.1 != "note")) k = dictGet fs k := by
  induction fs with
  | nil => rfl
  | cons kv rest ih =>
    rcases kv with ⟨k1, w⟩
    rw [List.filter_cons]
    by_cases h1 : (k1 != "note") = true
    · rw [if_pos h1, dictGet_cons, dictGet_cons]
      by_cases h2 : (k1 == k) = true
      · rw [if_pos h2, if_pos h2]
      · have hb2 : (k1 == k) = false := by simpa using h2
        rw [if_neg (by simp [hb2]), if_neg (by simp [hb2])]
        exact ih
    · have hk1 : k1 = "note" := by simpa using h1
      subst hk1
      rw [if_neg h1, dictGet_cons]
      have hb : ("note" == k) = false := by
        simp only [beq_eq_false_iff_ne, ne_eq]
        exact fun hh => hk hh.symm
      rw [if_neg (by simp [hb])]
      exact ih

theorem buildSlot_falsy {α : Type} (mk : JObj → Option α) (v : JVal)
    (h : v.truthy = false) : buildSlot mk v = .ok none := by
  cases v <;> simp [buildSlot, h]

theorem dictGetD_falsy (fs : JObj) (k : String)
    (h : dictGet fs k = none ∨ dictGet fs k = some .null ∨ dictGet fs k = some (.obj [])) :
    (dictGetD fs k .null).truthy = false := by
  rcases h with h | h | h <;> simp [dictGetD, h, JVal.truthy]

theorem assembleSlots_all_falsy (fs : JObj)
    (h : ∀ k ∈ sixSlotKeys, (dictGetD fs k .null).truthy = false) :
    assembleSlots fs = .ok ⟨none, none, none, none, none, none⟩ := by
  have h1 := buildSlot_falsy mkEldercareExperience _ (h "eldercare" (by simp [sixSlotKeys]))
  have h2 := buildSlot_falsy mkChildcareExperience _ (h "childcare" (by simp [sixSlotKeys]))
  have h3 := buildSlot_falsy mkSpecialNeedsExperience _
    (h "special-needs" (by simp [sixSlotKeys]))
  have h4 := buildSlot_falsy mkPostSurgeryExperience _
    (h "post-surgery" (by simp [sixSlotKeys]))
  have h5 := buildSlot_falsy mkDementiaExperience _ (h "dementia" (by simp [sixSlotKeys]))
  have h6 := buildSlot_falsy mkDisabilityExperience _ (h "disability" (by simp [sixSlotKeys]))
  rw [assembleSlots, h1, h2, h3, h4, h5, h6]
  rfl

/-- C10: for every non-empty caregiving-experience mapping in which
each of the six care-type keys is absent, null, or bound to an empty
mapping (for example a mapping holding only unknown keys), both
assembly sites produce a present aggregate with all six slots absent;
the absent aggregate arises only when the mapping itself is empty, and
a slot bound to an empty mapping is treated as absent rather than as a
zero-experience record. -/
theorem claim_C10_experience_assembly :
    (∀ fs : JObj, fs ≠ [] →
        (∀ k ∈ sixSlotKeys,
            dictGet fs k = none ∨ dictGet fs k = some .null ∨
              dictGet fs k = some (.obj [])) →
        extractCaregivingExperience (.obj fs) =
          .ok (some ⟨none, none, none, none, none, none⟩)
        ∧ extractMatchCaregivingExperience (.obj fs) =
            .ok (some ⟨none, none, none, none, none, none⟩))
    ∧ (∀ fs : JObj, fs ≠ [] → extractCaregivingExperience (.obj fs) ≠ .ok none)
    ∧ extractCaregivingExperience (.obj []) = .ok none
    ∧ extractMatchCaregivingExperience (.obj []) = .ok none
    ∧ extractCaregivingExperience (.obj [("unknown-key", .str "x")]) =
        .ok (some ⟨none, none, none, none, none, none⟩) := by
  refine ⟨?_, ?_, rfl, rfl, rfl⟩
  · intro fs hne h
    have htr : (JVal.obj fs).truthy = true := by
      cases fs with
      | nil => exact absurd rfl hne
      | cons a l => rfl
    constructor
    · rw [extractCaregivingExperience, if_pos htr]
      rw [assembleSlots_all_falsy fs (fun k hk => dictGetD_falsy fs k (h k hk))]
      rfl
    · rw [extractMatchCaregivingExperience, if_pos htr]
      have hfil : ∀ k ∈ sixSlotKeys,
          (dictGetD (fs.filter (fun kv => kv.1 != "note")) k .null).truthy = false := by
        intro k hk
        have hknote : k ≠ "note" := by
          rcases (by simpa [sixSlotKeys] using hk :
            k = "eldercare" ∨ k = "childcare" ∨ k = "special-needs" ∨
              k = "post-surgery" ∨ k = "dementia" ∨ k = "disability")
            with rfl | rfl | rfl | rfl | rfl | rfl <;> decide
        refine dictGetD_falsy _ k ?_
        rw [dictGet_filter_note fs k hknote]
        exact h k hk
      rw [assembleSlots_all_falsy _ hfil]
      rfl
  · intro fs hne hEq
    have htr : (JVal.obj fs).truthy = true := by
      cases fs with
      | nil => exact absurd rfl hne
      | cons a l => rfl
    rw [extractCaregivingExperience, if_pos htr] at hEq
    cases has : assembleSlots fs with
    | error e =>
      rw [has] at hEq
      simp [Except.map] at hEq
    | ok x =>
      rw [has] at hEq
      simp [Except.map] at hEq

/-- Witness for C10 at a mapping holding only the descriptive note. -/
theorem claim_C10_experience_assembly_witness :
    extractCaregivingExperience (.obj [("note", .str "overlap only")]) =
      .ok (some ⟨none, none, none, none, none, none⟩)
    ∧ extractMatchCaregivingExperience (.obj [("note", .str "overlap only")]) =
        .ok (some ⟨none, none, none, none, none, none⟩) :=
  claim_C10_experience_assembly.1 [("note", .str "overlap only")]
    (List.cons_ne_nil _ _)
    (by
      intro k hk
      left
      rcases (by simpa [sixSlotKeys] using hk :
        k = "eldercare" ∨ k = "childcare" ∨ k = "special-needs" ∨
          k = "post-surgery" ∨ k = "dementia" ∨ k = "disability")
        with rfl | rfl | rfl | rfl | rfl | rfl <;> rfl)

/-- Witness for C5 at concrete experience mappings. -/
theorem claim_C5_sanitize_years_witness :
    dictGet (sanitize_experience_data
        [("years", JVal.null), ("tasks_performed", .arr [])]) "years" = some (.num 0)
    ∧ dictGet (sanitize_experience_data [("years", .str "2.5")]) "years" =
        some (.num (5 / 2)) :=
  ⟨claim_C5_sanitize_years.1 [("years", JVal.null), ("tasks_performed", .arr [])] rfl,
    claim_C5_sanitize_years.2.2.1 [("years", .str "2.5")] "2.5" (5 / 2) rfl (by rfl)⟩
